import Mathlib

/- Verification development for the FFD structured-grid generation and STL
   bounds utilities of the DrivAer_adjoint repository.  Python floats are
   modelled with exact rationals; numpy arrays with Lean lists indexed by
   getD. -/

namespace DrivAer

/-- Vec3 models a 3-D point as a triple of rational coordinates. -/
abbrev Vec3 := ℚ × ℚ × ℚ

/-- Element i of numpy.linspace(a, b, n), namely a + i * (b - a) / (n - 1).
    For n = 1 numpy returns the singleton [a]; the formula agrees there since
    i = 0 makes the (division-by-zero) term vanish. -/
def lsp (a b : ℚ) (n : ℕ) (i : ℕ) : ℚ := a + i * (b - a) / ((n : ℚ) - 1)

/-- numpy.linspace(a, b, n): n evenly spaced rationals from a to b, both
    endpoints included (for n ≥ 2). -/
def linspace (a b : ℚ) (n : ℕ) : List ℚ := (List.range n).map (lsp a b n)

/-- Coordinate channel idim of returnBlockPoints (genXYZ.py lines 31-63):
    the value stored in points[i, j, k, idim], where c m is the idim
    coordinate of corner m in the documented corner ordering.  The code first
    builds the four z-direction edges, then interpolates in x at the given k,
    then in y at the given i. -/
def returnBlockPointsDim (c : Fin 8 → ℚ) (nx ny nz : ℕ) (i j k : ℕ) : ℚ :=
  let edge_yMin_xMin := linspace (c 0) (c 3) nz
  let edge_yMin_xMax := linspace (c 1) (c 2) nz
  let edge_yMax_xMin := linspace (c 4) (c 7) nz
  let edge_yMax_xMax := linspace (c 5) (c 6) nz
  let edge_yMin := linspace (edge_yMin_xMin.getD k 0) (edge_yMin_xMax.getD k 0) nx
  let edge_yMax := linspace (edge_yMax_xMin.getD k 0) (edge_yMax_xMax.getD k 0) nx
  let edge_y := linspace (edge_yMin.getD i 0) (edge_yMax.getD i 0) ny
  edge_y.getD j 0

/-- returnBlockPoints (genXYZ.py): the lattice point at index (i, j, k) of
    the corner-based generator, assembled channel by channel exactly as the
    idim loop of the source does. -/
def returnBlockPoints (corners : Fin 8 → Vec3) (nx ny nz i j k : ℕ) : Vec3 :=
  (returnBlockPointsDim (fun m => (corners m).1) nx ny nz i j k,
   returnBlockPointsDim (fun m => (corners m).2.1) nx ny nz i j k,
   returnBlockPointsDim (fun m => (corners m).2.2) nx ny nz i j k)

/-- Reference trilinear interpolation of 8 corner values with parameters
    u (x direction), v (y direction), w (z direction), for the corner
    ordering documented in returnBlockPoints's docstring:
    0:(x-,y-,z-) 1:(x+,y-,z-) 2:(x+,y-,z+) 3:(x-,y-,z+)
    4:(x-,y+,z-) 5:(x+,y+,z-) 6:(x+,y+,z+) 7:(x-,y+,z+). -/
def trilinear (c : Fin 8 → ℚ) (u v w : ℚ) : ℚ :=
  (1-u)*(1-v)*(1-w) * c 0 + u*(1-v)*(1-w) * c 1 + u*(1-v)*w * c 2 +
  (1-u)*(1-v)*w * c 3 + (1-u)*v*(1-w) * c 4 + u*v*(1-w) * c 5 +
  u*v*w * c 6 + (1-u)*v*w * c 7

/-- Corner set of an axis-aligned box, in the fixed low/high ordering
    documented in returnBlockPoints's docstring (and used by the driver code
    of genXYZ.py when it fills the corners array). -/
def boxCorners (xMin xMax yMin yMax zMin zMax : ℚ) : Fin 8 → Vec3
  | 0 => (xMin, yMin, zMin)
  | 1 => (xMax, yMin, zMin)
  | 2 => (xMax, yMin, zMax)
  | 3 => (xMin, yMin, zMax)
  | 4 => (xMin, yMax, zMin)
  | 5 => (xMax, yMax, zMin)
  | 6 => (xMax, yMax, zMax)
  | 7 => (xMin, yMax, zMax)

/-- Lattice point (i, j, k) of the offset-box construction of
    generate_ffd_box (generate_ffd_offset.py lines 114-151): the outer
    product of the three per-axis linspaces, so the x channel at (i, j, k)
    is x_coords[i], the y channel y_coords[j], the z channel z_coords[k]. -/
def offsetBoxLattice (xMin xMax yMin yMax zMin zMax : ℚ) (nx ny nz i j k : ℕ) : Vec3 :=
  ((linspace xMin xMax nx).getD i 0,
   (linspace yMin yMax ny).getD j 0,
   (linspace zMin zMax nz).getD k 0)

/-- Decimal formatting of a coordinate to 6 decimal places, as both
    serializers do (writeFFDFile with a percent-f conversion, generate_ffd_box
    with a .6f format string): modelled as rounding to the nearest 10⁻⁶. -/
def fmt6 (q : ℚ) : ℚ := (⌊q * 1000000 + 1/2⌋ : ℚ) / 1000000

/-- Flattened coordinate channel written by the serializers: the triple loop
    for k in range(nz), j in range(ny), i in range(nx) appending g i j k, so
    i varies fastest and k slowest. -/
def flattenChannel (nx ny nz : ℕ) (g : ℕ → ℕ → ℕ → ℚ) : List ℚ :=
  (List.range nz).flatMap (fun k =>
    (List.range ny).flatMap (fun j =>
      (List.range nx).map (fun i => g i j k)))

/-- Error values with which the Python code can abort: structError models a
    raw struct.error raised by struct.unpack on a short buffer, valueError a
    ValueError (float() on a non-numeric token, numpy.linspace with a
    negative count). -/
inductive PyErr where
  | structError
  | valueError
deriving DecidableEq

/-- Serialized single-block Plot3D file as produced by generate_ffd_box:
    the block-count header, the dims line, and the three flat coordinate
    channels, each written as its own separate sequence. -/
structure FFDFile where
  nBlocks : ℕ
  nx : ℕ
  ny : ℕ
  nz : ℕ
  xs : List ℚ
  ys : List ℚ
  zs : List ℚ
deriving DecidableEq

/-- Effective FFD box bounds computed by generate_ffd_box (lines 94-107):
    an optional x_start / x_end override replaces only the first coordinate
    of the min / max corner, then the per-axis offsets are applied to every
    axis. -/
def ffdBoxBounds (minPoint maxPoint : Vec3) (offX offY offZ : ℚ)
    (xStart xEnd : Option ℚ) : Vec3 × Vec3 :=
  let minP := match xStart with
    | some a => (a, minPoint.2.1, minPoint.2.2)
    | none => minPoint
  let maxP := match xEnd with
    | some b => (b, maxPoint.2.1, maxPoint.2.2)
    | none => maxPoint
  ((minP.1 - offX, minP.2.1 - offY, minP.2.2 - offZ),
   (maxP.1 + offX, maxP.2.1 + offY, maxP.2.2 + offZ))

/-- numpy.linspace with the count passed as a Python int: numpy raises a
    ValueError for a negative count and otherwise produces the list (an
    empty list for count 0, the singleton [a] for count 1). -/
def linspaceI (a b : ℚ) (n : ℤ) : Except PyErr (List ℚ) :=
  if n < 0 then .error .valueError else .ok (linspace a b n.toNat)

/-- generate_ffd_box (generate_ffd_offset.py lines 71-151), with the
    geometry bounds already extracted from the STL file: applies the
    optional x-range overrides and the per-axis offsets, builds the three
    per-axis linspaces, and serializes the three coordinate channels with i
    varying fastest and k slowest, each value formatted to 6 decimals.
    The code has no validation of the point counts or of the resulting box;
    the only failure besides file I/O is numpy rejecting a negative count. -/
def generate_ffd_box (minPoint maxPoint : Vec3) (nx ny nz : ℤ)
    (offX offY offZ : ℚ) (xStart xEnd : Option ℚ) : Except PyErr FFDFile :=
  let bb := ffdBoxBounds minPoint maxPoint offX offY offZ xStart xEnd
  match linspaceI bb.1.1 bb.2.1 nx, linspaceI bb.1.2.1 bb.2.2.1 ny,
        linspaceI bb.1.2.2 bb.2.2.2 nz with
  | .ok xc, .ok yc, .ok zc =>
      .ok { nBlocks := 1, nx := nx.toNat, ny := ny.toNat, nz := nz.toNat,
            xs := flattenChannel nx.toNat ny.toNat nz.toNat
              (fun i _ _ => fmt6 (xc.getD i 0)),
            ys := flattenChannel nx.toNat ny.toNat nz.toNat
              (fun _ j _ => fmt6 (yc.getD j 0)),
            zs := flattenChannel nx.toNat ny.toNat nz.toNat
              (fun _ _ k => fmt6 (zc.getD k 0)) }
  | .error e, _, _ => .error e
  | _, .error e, _ => .error e
  | _, _, .error e => .error e

/-- PyF models a Python float value occurring in the bounds computation: a
    finite rational or one of the infinities used as initial accumulator
    values (get_stl_bounds starts from float('inf') / float('-inf')). -/
inductive PyF where
  | ninf
  | fin (q : ℚ)
  | inf
deriving DecidableEq

/-- Python's strict comparison a < b on these float values (no NaN). -/
def PyF.ltb : PyF → PyF → Bool
  | .ninf, .ninf => false
  | .ninf, _ => true
  | .fin _, .ninf => false
  | .fin a, .fin b => decide (a < b)
  | .fin _, .inf => true
  | .inf, _ => false

/-- Python's comparison a <= b on these float values. -/
def PyF.leb : PyF → PyF → Bool
  | .ninf, _ => true
  | .fin _, .ninf => false
  | .fin a, .fin b => decide (a ≤ b)
  | .fin _, .inf => true
  | .inf, .inf => true
  | .inf, _ => false

/-- Python's builtin min(a, b): returns b exactly when b < a. -/
def pymin (a b : PyF) : PyF := if PyF.ltb b a then b else a

/-- Python's builtin max(a, b): returns b exactly when a < b. -/
def pymax (a b : PyF) : PyF := if PyF.ltb a b then b else a

/-- Six running accumulators of get_stl_bounds. -/
structure Bnds where
  min_x : PyF
  min_y : PyF
  min_z : PyF
  max_x : PyF
  max_y : PyF
  max_z : PyF
deriving DecidableEq

/-- Initial accumulators of get_stl_bounds (lines 38-39): the minima start
    at float('inf'), the maxima at float('-inf'). -/
def initBnds : Bnds := ⟨.inf, .inf, .inf, .ninf, .ninf, .ninf⟩

/-- Update of all six accumulators with one vertex, exactly the three
    min/max assignment lines executed per vertex in both branches. -/
def updBnds (b : Bnds) (v : Vec3) : Bnds :=
  ⟨pymin b.min_x (.fin v.1), pymin b.min_y (.fin v.2.1), pymin b.min_z (.fin v.2.2),
   pymax b.max_x (.fin v.1), pymax b.max_y (.fin v.2.1), pymax b.max_z (.fin v.2.2)⟩

/-- Little-endian unsigned 32-bit value of four bytes. -/
def u32 (b0 b1 b2 b3 : ℕ) : ℕ :=
  b0 % 256 + 256 * (b1 % 256) + 65536 * (b2 % 256) + 16777216 * (b3 % 256)

/-- Exact rational value of a little-endian IEEE-754 binary32 float.  The
    non-finite encodings (exponent 255: infinities and NaNs), which a
    well-formed mesh does not contain, are mapped to signed sentinels larger
    in magnitude than every finite float value, preserving the ordering. -/
def decode32 (b0 b1 b2 b3 : ℕ) : ℚ :=
  let bits : ℕ := u32 b0 b1 b2 b3
  let sgn : ℚ := if bits / 2 ^ 31 % 2 = 1 then -1 else 1
  let e : ℕ := bits / 2 ^ 23 % 256
  let m : ℕ := bits % 2 ^ 23
  if e = 0 then sgn * (m : ℚ) / 2 ^ 149
  else if e = 255 then sgn * 2 ^ 200
  else sgn * ((2 ^ 23 + m : ℕ) : ℚ) * (2 : ℚ) ^ e / 2 ^ 150

/-- struct.unpack('fff', f.read(12)): f.read returns at most 12 bytes and
    unpack raises struct.error unless it gets exactly 12; on success the
    three floats are decoded and 12 bytes are consumed. -/
def read12 (bs : List ℕ) : Option (Vec3 × List ℕ) :=
  if 12 ≤ bs.length then
    some ((decode32 (bs.getD 0 0) (bs.getD 1 0) (bs.getD 2 0) (bs.getD 3 0),
           decode32 (bs.getD 4 0) (bs.getD 5 0) (bs.getD 6 0) (bs.getD 7 0),
           decode32 (bs.getD 8 0) (bs.getD 9 0) (bs.getD 10 0) (bs.getD 11 0)),
          bs.drop 12)
  else none

/-- Per-triangle loop of the binary branch of get_stl_bounds (lines 59-66):
    skip the 12 normal bytes (f.read without a length check), unpack the
    three vertices (struct.error when fewer than 12 bytes remain), update
    the bounds after each vertex, then skip the 2 attribute bytes. -/
def triLoop : ℕ → List ℕ → Bnds → Except PyErr Bnds
  | 0, _, b => .ok b
  | n + 1, bs, b =>
    match read12 (bs.drop 12) with
    | none => .error .structError
    | some (v1, bs2) =>
      match read12 bs2 with
      | none => .error .structError
      | some (v2, bs3) =>
        match read12 bs3 with
        | none => .error .structError
        | some (v3, bs4) =>
          triLoop n (bs4.drop 2) (updBnds (updBnds (updBnds b v1) v2) v3)

/-- Binary branch of get_stl_bounds (lines 54-66): skip the 80-byte header,
    unpack the 4-byte little-endian triangle count (struct.error when fewer
    than 4 bytes are present), then run the triangle loop from the ±inf
    accumulators. -/
def get_stl_bounds_binary (bytes : List ℕ) : Except PyErr Bnds :=
  match bytes.drop 80 with
  | c0 :: c1 :: c2 :: c3 :: rest => triLoop (u32 c0 c1 c2 c3) rest initBnds
  | _ => .error .structError

/-- Specification-side extraction of the vertex list visited by the binary
    branch: the same parse structure as triLoop, collecting the decoded
    vertices instead of folding min/max over them. -/
def triVerts : ℕ → List ℕ → Option (List Vec3)
  | 0, _ => some []
  | n + 1, bs =>
    match read12 (bs.drop 12) with
    | none => none
    | some (v1, bs2) =>
      match read12 bs2 with
      | none => none
      | some (v2, bs3) =>
        match read12 bs3 with
        | none => none
        | some (v3, bs4) =>
          (triVerts n (bs4.drop 2)).map (fun vs => v1 :: v2 :: v3 :: vs)

/-- Vertex list of a binary STL byte file, when it parses completely. -/
def binVerts (bytes : List ℕ) : Option (List Vec3) :=
  match bytes.drop 80 with
  | c0 :: c1 :: c2 :: c3 :: rest => triVerts (u32 c0 c1 c2 c3) rest
  | _ => none

/-- Structural startswith test on character lists (Python's
    str.startswith). -/
def strStartsWith : List Char → List Char → Bool
  | _, [] => true
  | [], _ :: _ => false
  | c :: cs, d :: ds => c == d && strStartsWith cs ds

/-- Token of a whitespace-split line of a text STL file: a word or a
    decimal number (one that Python's float() accepts). -/
inductive STok where
  | word (s : List Char)
  | num (q : ℚ)
deriving DecidableEq

/-- float(token): succeeds exactly on numeric tokens, raising a ValueError
    on words. -/
def parseFloat : STok → Option ℚ
  | .word _ => none
  | .num q => some q

/-- The test stripped.startswith('vertex') at the token level: the line is
    nonempty and its first token is a word starting with "vertex". -/
def startsVertex : List STok → Bool
  | .word s :: _ => strStartsWith s "vertex".data
  | _ => false

/-- Per-line body of the ASCII branch of get_stl_bounds (lines 44-52): a
    line that starts with the vertex keyword and splits into exactly 4
    fields updates the bounds with its 3 parsed coordinates (float()
    raising a ValueError on a malformed number); other lines are skipped. -/
def asciiLine (b : Bnds) (line : List STok) : Except PyErr Bnds :=
  if startsVertex line then
    match line with
    | [_, t1, t2, t3] =>
      match parseFloat t1, parseFloat t2, parseFloat t3 with
      | some x, some y, some z => .ok (updBnds b (x, y, z))
      | _, _, _ => .error .valueError
    | _ => .ok b
  else .ok b

/-- Line loop of the ASCII branch: process the lines in order, stopping at
    the first raised error. -/
def asciiLoop : List (List STok) → Bnds → Except PyErr Bnds
  | [], b => .ok b
  | l :: ls, b =>
    match asciiLine b l with
    | .ok b2 => asciiLoop ls b2
    | .error e => .error e

/-- ASCII branch of get_stl_bounds (lines 41-52). -/
def get_stl_bounds_ascii (lines : List (List STok)) : Except PyErr Bnds :=
  asciiLoop lines initBnds

/-- Specification-side extraction of the vertex triple contributed by one
    ASCII line (empty for skipped lines, none for a malformed number). -/
def asciiLineVerts (line : List STok) : Option (List Vec3) :=
  if startsVertex line then
    match line with
    | [_, t1, t2, t3] =>
      match parseFloat t1, parseFloat t2, parseFloat t3 with
      | some x, some y, some z => some [(x, y, z)]
      | _, _, _ => none
    | _ => some []
  else some []

/-- Vertex list of an ASCII STL token file, when all its vertex lines are
    well formed. -/
def asciiVerts : List (List STok) → Option (List Vec3)
  | [] => some []
  | l :: ls =>
    match asciiLineVerts l, asciiVerts ls with
    | some v, some vs => some (v ++ vs)
    | _, _ => none

/-- Data bytes of a binary STL file holding the single triangle
    (0,0,0), (1,0,0), (0,1,0): a zero normal, the three little-endian
    binary32 vertices, and a zero attribute count. -/
def stlTriData : List ℕ :=
  [0, 0, 0, 0, 0, 0, 0, 0, 0, 0, 0, 0,
   0, 0, 0, 0, 0, 0, 0, 0, 0, 0, 0, 0,
   0, 0, 128, 63, 0, 0, 0, 0, 0, 0, 0, 0,
   0, 0, 0, 0, 0, 0, 128, 63, 0, 0, 0, 0,
   0, 0]

/-- Complete binary STL file for that single triangle: 80-byte header,
    triangle count 1, then the triangle record. -/
def stlTriBytes : List ℕ := List.replicate 80 0 ++ ([1, 0, 0, 0] ++ stlTriData)

/-- Token lines of the ASCII STL file for the same single triangle. -/
def stlTriLines : List (List STok) :=
  [[.word "solid".data, .word "object".data],
   [.word "facet".data, .word "normal".data, .num 0, .num 0, .num 1],
   [.word "outer".data, .word "loop".data],
   [.word "vertex".data, .num 0, .num 0, .num 0],
   [.word "vertex".data, .num 1, .num 0, .num 0],
   [.word "vertex".data, .num 0, .num 1, .num 0],
   [.word "endloop".data],
   [.word "endfacet".data],
   [.word "endsolid".data, .word "object".data]]

/-- Token of the Plot3D text stream: an integer (written with a percent-d
    conversion), a real (percent-f or .6f conversion, already rounded to 6
    decimals by the writer), or a newline. -/
inductive Tok where
  | int (n : ℤ)
  | real (q : ℚ)
  | nl
deriving DecidableEq

/-- One block passed to writeFFDFile: its three point counts and its
    lattice, indexed (i, j, k, dim). -/
structure Block where
  nx : ℕ
  ny : ℕ
  nz : ℕ
  pts : ℕ → ℕ → ℕ → Fin 3 → ℚ

/-- Token stream written by writeFFDFile (genXYZ.py lines 4-29): the block
    count line, one dims line listing nx ny nz of every block, then per
    block the three coordinate channels in (k, j, i) flattening order, a
    newline after the x and y channels only — the z channel of a block runs
    into the next write, exactly as the source's f.write calls do. -/
def writeFFDFile (blocks : List Block) : List Tok :=
  [.int blocks.length, .nl] ++
  (blocks.flatMap (fun b => [.int b.nx, .int b.ny, .int b.nz])) ++ [.nl] ++
  blocks.flatMap (fun b =>
    (flattenChannel b.nx b.ny b.nz (fun i j k => fmt6 (b.pts i j k 0))).map .real ++
    [.nl] ++
    (flattenChannel b.nx b.ny b.nz (fun i j k => fmt6 (b.pts i j k 1))).map .real ++
    [.nl] ++
    (flattenChannel b.nx b.ny b.nz (fun i j k => fmt6 (b.pts i j k 2))).map .real)

/-- Helper splitting a token stream into lines at newline tokens, carrying
    the current partial line; the trailing segment forms a final line only
    when nonempty, matching Python's file-line iteration. -/
def splitLinesAux : List Tok → List Tok → List (List Tok)
  | [], cur => if cur = [] then [] else [cur]
  | .nl :: ts, cur => cur :: splitLinesAux ts []
  | .int n :: ts, cur => splitLinesAux ts (cur ++ [.int n])
  | .real q :: ts, cur => splitLinesAux ts (cur ++ [.real q])

/-- The lines a Python "for line in f" loop sees in a token stream. -/
def splitLines (ts : List Tok) : List (List Tok) := splitLinesAux ts []

/-- float(tok): integer and real tokens both parse as floats (the newline
    token never occurs inside a split line). -/
def tokFloat : Tok → ℚ
  | .int n => (n : ℚ)
  | .real q => q
  | .nl => 0

/-- Greedy coordinate-collection loop of readPlot3D (convert_XYZ_to_VTK.py
    lines 18-23 and its two copies): skip blank lines, extend the
    accumulator with the floats of each line, and stop as soon as at least
    n values are collected, returning the unread lines as well. -/
def collect (n : ℕ) : List ℚ → List (List Tok) → List ℚ × List (List Tok)
  | acc, [] => (acc, [])
  | acc, l :: ls =>
    if l = [] then collect n acc ls
    else
      if n ≤ (acc ++ l.map tokFloat).length then (acc ++ l.map tokFloat, ls)
      else collect n (acc ++ l.map tokFloat) ls

/-- readPlot3D (convert_XYZ_to_VTK.py lines 7-44): parse the block count
    line (read but only used for parsing), take nx, ny, nz from the first
    three integers of the dims line, then collect the three channels
    greedily, truncating each to nx*ny*nz values; numpy's reshape to
    (nz, ny, nx) raises when fewer values were collected.  The reshaped
    array entry [k, j, i] is flat entry k*ny*nx + j*nx + i of the returned
    channel. -/
def readPlot3D (lines : List (List Tok)) :
    Option (ℕ × ℕ × ℕ × List ℚ × List ℚ × List ℚ) :=
  match lines with
  | l1 :: l2 :: rest =>
    match l1 with
    | [.int _] =>
      match l2 with
      | .int a :: .int b :: .int c :: _ =>
        let n := a.toNat * b.toNat * c.toNat
        let rx := collect n [] rest
        if rx.1.length < n then none else
        let ry := collect n [] rx.2
        if ry.1.length < n then none else
        let rz := collect n [] ry.2
        if rz.1.length < n then none else
        some (a.toNat, b.toNat, c.toNat, rx.1.take n, ry.1.take n, rz.1.take n)
      | _ => none
    | _ => none
  | _ => none

theorem linspace_length (a b : ℚ) (n : ℕ) : (linspace a b n).length = n := by
  simp [linspace]

theorem linspace_getD (a b : ℚ) {n i : ℕ} (h : i < n) :
    (linspace a b n).getD i 0 = lsp a b n i := by
  rw [linspace, List.getD_eq_getElem _ _ (by simpa using h), List.getElem_map]
  congr 1
  exact List.getElem_range _ _

theorem cast_sub_one_ne_zero {n : ℕ} (h : 2 ≤ n) : ((n : ℚ) - 1) ≠ 0 := by
  have h1 : (2 : ℚ) ≤ (n : ℚ) := by exact_mod_cast h
  intro hc
  nlinarith

theorem returnBlockPointsDim_eq_trilinear (c : Fin 8 → ℚ) {nx ny nz i j k : ℕ}
    (hx : 2 ≤ nx) (hy : 2 ≤ ny) (hz : 2 ≤ nz)
    (hi : i < nx) (hj : j < ny) (hk : k < nz) :
    returnBlockPointsDim c nx ny nz i j k =
      trilinear c ((i : ℚ) / ((nx : ℚ) - 1)) ((j : ℚ) / ((ny : ℚ) - 1))
        ((k : ℚ) / ((nz : ℚ) - 1)) := by
  have hx1 := cast_sub_one_ne_zero hx
  have hy1 := cast_sub_one_ne_zero hy
  have hz1 := cast_sub_one_ne_zero hz
  simp only [returnBlockPointsDim, linspace_getD _ _ hk, linspace_getD _ _ hi,
    linspace_getD _ _ hj, lsp, trilinear]
  field_simp
  ring

/-- C1: for every set of 8 corner points and every nx, ny, nz ≥ 2, the
    corner-based generator returnBlockPoints produces at lattice index
    (i, j, k) exactly the trilinear blend of the 8 corners with parameters
    i/(nx-1), j/(ny-1), k/(nz-1), in each of the three coordinate
    channels. -/
theorem returnBlockPoints_is_trilinear (corners : Fin 8 → Vec3)
    {nx ny nz i j k : ℕ} (hx : 2 ≤ nx) (hy : 2 ≤ ny) (hz : 2 ≤ nz)
    (hi : i < nx) (hj : j < ny) (hk : k < nz) :
    returnBlockPoints corners nx ny nz i j k =
      (trilinear (fun m => (corners m).1)
          ((i : ℚ) / ((nx : ℚ) - 1)) ((j : ℚ) / ((ny : ℚ) - 1)) ((k : ℚ) / ((nz : ℚ) - 1)),
       trilinear (fun m => (corners m).2.1)
          ((i : ℚ) / ((nx : ℚ) - 1)) ((j : ℚ) / ((ny : ℚ) - 1)) ((k : ℚ) / ((nz : ℚ) - 1)),
       trilinear (fun m => (corners m).2.2)
          ((i : ℚ) / ((nx : ℚ) - 1)) ((j : ℚ) / ((ny : ℚ) - 1)) ((k : ℚ) / ((nz : ℚ) - 1))) := by
  unfold returnBlockPoints
  rw [returnBlockPointsDim_eq_trilinear _ hx hy hz hi hj hk,
    returnBlockPointsDim_eq_trilinear _ hx hy hz hi hj hk,
    returnBlockPointsDim_eq_trilinear _ hx hy hz hi hj hk]

/-- Witness for C1 at a concrete sheared hexahedron with nx = ny = nz = 2
    and index (1, 0, 1). -/
theorem returnBlockPoints_is_trilinear_witness :
    returnBlockPoints
      (fun m => ((m : ℚ), (m : ℚ) * (m : ℚ), 7 - (m : ℚ))) 2 2 2 1 0 1 =
      (trilinear (fun m => (((fun m => ((m : ℚ), (m : ℚ) * (m : ℚ), 7 - (m : ℚ))) m : Vec3)).1)
          ((1 : ℚ) / ((2 : ℚ) - 1)) ((0 : ℚ) / ((2 : ℚ) - 1)) ((1 : ℚ) / ((2 : ℚ) - 1)),
       trilinear (fun m => (((fun m => ((m : ℚ), (m : ℚ) * (m : ℚ), 7 - (m : ℚ))) m : Vec3)).2.1)
          ((1 : ℚ) / ((2 : ℚ) - 1)) ((0 : ℚ) / ((2 : ℚ) - 1)) ((1 : ℚ) / ((2 : ℚ) - 1)),
       trilinear (fun m => (((fun m => ((m : ℚ), (m : ℚ) * (m : ℚ), 7 - (m : ℚ))) m : Vec3)).2.2)
          ((1 : ℚ) / ((2 : ℚ) - 1)) ((0 : ℚ) / ((2 : ℚ) - 1)) ((1 : ℚ) / ((2 : ℚ) - 1))) := by
  have h := @returnBlockPoints_is_trilinear
      (fun m => ((m : ℚ), (m : ℚ) * (m : ℚ), 7 - (m : ℚ))) 2 2 2 1 0 1
      (by decide) (by decide) (by decide) (by decide) (by decide) (by decide)
  simpa using h

theorem trilinear_boxCorners_x (x0 x1 y0 y1 z0 z1 u v w : ℚ) :
    trilinear (fun m => (boxCorners x0 x1 y0 y1 z0 z1 m).1) u v w =
      (1 - u) * x0 + u * x1 := by
  have h : trilinear (fun m => (boxCorners x0 x1 y0 y1 z0 z1 m).1) u v w =
      (1-u)*(1-v)*(1-w) * x0 + u*(1-v)*(1-w) * x1 + u*(1-v)*w * x1 +
      (1-u)*(1-v)*w * x0 + (1-u)*v*(1-w) * x0 + u*v*(1-w) * x1 +
      u*v*w * x1 + (1-u)*v*w * x0 := rfl
  rw [h]; ring

theorem trilinear_boxCorners_y (x0 x1 y0 y1 z0 z1 u v w : ℚ) :
    trilinear (fun m => (boxCorners x0 x1 y0 y1 z0 z1 m).2.1) u v w =
      (1 - v) * y0 + v * y1 := by
  have h : trilinear (fun m => (boxCorners x0 x1 y0 y1 z0 z1 m).2.1) u v w =
      (1-u)*(1-v)*(1-w) * y0 + u*(1-v)*(1-w) * y0 + u*(1-v)*w * y0 +
      (1-u)*(1-v)*w * y0 + (1-u)*v*(1-w) * y1 + u*v*(1-w) * y1 +
      u*v*w * y1 + (1-u)*v*w * y1 := rfl
  rw [h]; ring

theorem trilinear_boxCorners_z (x0 x1 y0 y1 z0 z1 u v w : ℚ) :
    trilinear (fun m => (boxCorners x0 x1 y0 y1 z0 z1 m).2.2) u v w =
      (1 - w) * z0 + w * z1 := by
  have h : trilinear (fun m => (boxCorners x0 x1 y0 y1 z0 z1 m).2.2) u v w =
      (1-u)*(1-v)*(1-w) * z0 + u*(1-v)*(1-w) * z0 + u*(1-v)*w * z1 +
      (1-u)*(1-v)*w * z1 + (1-u)*v*(1-w) * z0 + u*v*(1-w) * z0 +
      u*v*w * z1 + (1-u)*v*w * z1 := rfl
  rw [h]; ring

/-- C2: for every axis-aligned box and every nx, ny, nz ≥ 2, the corner-based
    generator returnBlockPoints applied to the box's 8 corners and the
    offset-box outer-product-of-linspaces construction produce the identical
    lattice of points. -/
theorem returnBlockPoints_eq_offsetBoxLattice
    (xMin xMax yMin yMax zMin zMax : ℚ) {nx ny nz i j k : ℕ}
    (hx : 2 ≤ nx) (hy : 2 ≤ ny) (hz : 2 ≤ nz)
    (hi : i < nx) (hj : j < ny) (hk : k < nz) :
    returnBlockPoints (boxCorners xMin xMax yMin yMax zMin zMax) nx ny nz i j k =
      offsetBoxLattice xMin xMax yMin yMax zMin zMax nx ny nz i j k := by
  have hx1 := cast_sub_one_ne_zero hx
  have hy1 := cast_sub_one_ne_zero hy
  have hz1 := cast_sub_one_ne_zero hz
  unfold returnBlockPoints offsetBoxLattice
  rw [returnBlockPointsDim_eq_trilinear _ hx hy hz hi hj hk,
    returnBlockPointsDim_eq_trilinear _ hx hy hz hi hj hk,
    returnBlockPointsDim_eq_trilinear _ hx hy hz hi hj hk,
    linspace_getD _ _ hi, linspace_getD _ _ hj, linspace_getD _ _ hk,
    trilinear_boxCorners_x, trilinear_boxCorners_y, trilinear_boxCorners_z]
  refine Prod.ext ?_ (Prod.ext ?_ ?_) <;>
    · simp only [lsp]
      field_simp
      ring

/-- Witness for C2 on the unit cube with nx = ny = nz = 2 at index (1, 1, 0). -/
theorem returnBlockPoints_eq_offsetBoxLattice_witness :
    returnBlockPoints (boxCorners 0 1 0 1 0 1) 2 2 2 1 1 0 =
      offsetBoxLattice 0 1 0 1 0 1 2 2 2 1 1 0 :=
  returnBlockPoints_eq_offsetBoxLattice 0 1 0 1 0 1
    (by decide) (by decide) (by decide) (by decide) (by decide) (by decide)

theorem length_range_flatMap {β : Type} (inner : ℕ → List β) (L n : ℕ)
    (h : ∀ t, (inner t).length = L) :
    ((List.range n).flatMap inner).length = n * L := by
  induction n with
  | zero => simp
  | succ n ih =>
    rw [List.range_succ, List.flatMap_append, List.length_append, ih]
    simp [h, Nat.succ_mul]

theorem getD_range_flatMap (n : ℕ) :
    ∀ (inner : ℕ → List ℚ) (L t r : ℕ), (∀ s, (inner s).length = L) →
      t < n → r < L →
      ((List.range n).flatMap inner).getD (t * L + r) 0 = (inner t).getD r 0 := by
  induction n with
  | zero => intro inner L t r _ ht _; exact absurd ht (Nat.not_lt_zero t)
  | succ n ih =>
    intro inner L t r hL ht hr
    rw [List.range_succ_eq_map, List.flatMap_cons, List.flatMap_map Nat.succ inner]
    match t with
    | 0 =>
      rw [Nat.zero_mul, Nat.zero_add]
      exact List.getD_append _ _ _ r (by rw [hL]; exact hr)
    | s + 1 =>
      have hidx : (s + 1) * L + r = L + (s * L + r) := by ring
      rw [hidx, List.getD_append_right _ _ _ _ (by rw [hL]; omega)]
      have hs : L + (s * L + r) - (inner 0).length = s * L + r := by rw [hL]; omega
      rw [hs]
      exact ih (fun a => inner (Nat.succ a)) L s r (fun a => hL _) (by omega) hr

theorem flattenChannel_length (nx ny nz : ℕ) (g : ℕ → ℕ → ℕ → ℚ) :
    (flattenChannel nx ny nz g).length = nz * (ny * nx) := by
  unfold flattenChannel
  refine length_range_flatMap _ (ny * nx) nz (fun k => ?_)
  refine length_range_flatMap _ nx ny (fun j => ?_)
  simp

theorem flattenChannel_getD (nx ny nz : ℕ) (g : ℕ → ℕ → ℕ → ℚ)
    {i j k : ℕ} (hi : i < nx) (hj : j < ny) (hk : k < nz) :
    (flattenChannel nx ny nz g).getD (k * (ny * nx) + (j * nx + i)) 0 = g i j k := by
  unfold flattenChannel
  rw [getD_range_flatMap nz _ (ny * nx) k (j * nx + i)
    (fun s => length_range_flatMap _ nx ny (fun t => by simp))
    hk (by clear * - hi hj; nlinarith),
    getD_range_flatMap ny _ nx j i (fun s => by simp) hj hi]
  rw [List.getD_eq_getElem _ _ (by simpa using hi), List.getElem_map]
  congr 1
  exact List.getElem_range _ _

theorem generate_ffd_box_natCast (minPoint maxPoint : Vec3) (nx ny nz : ℕ)
    (offX offY offZ : ℚ) (xStart xEnd : Option ℚ) :
    generate_ffd_box minPoint maxPoint ↑nx ↑ny ↑nz offX offY offZ xStart xEnd =
      .ok { nBlocks := 1, nx := nx, ny := ny, nz := nz,
            xs := flattenChannel nx ny nz (fun i _ _ => fmt6
              ((linspace (ffdBoxBounds minPoint maxPoint offX offY offZ xStart xEnd).1.1
                (ffdBoxBounds minPoint maxPoint offX offY offZ xStart xEnd).2.1 nx).getD i 0)),
            ys := flattenChannel nx ny nz (fun _ j _ => fmt6
              ((linspace (ffdBoxBounds minPoint maxPoint offX offY offZ xStart xEnd).1.2.1
                (ffdBoxBounds minPoint maxPoint offX offY offZ xStart xEnd).2.2.1 ny).getD j 0)),
            zs := flattenChannel nx ny nz (fun _ _ k => fmt6
              ((linspace (ffdBoxBounds minPoint maxPoint offX offY offZ xStart xEnd).1.2.2
                (ffdBoxBounds minPoint maxPoint offX offY offZ xStart xEnd).2.2.2 nz).getD k 0)) } := by
  unfold generate_ffd_box linspaceI
  have h1 : ¬ ((nx : ℤ) < 0) := by omega
  have h2 : ¬ ((ny : ℤ) < 0) := by omega
  have h3 : ¬ ((nz : ℤ) < 0) := by omega
  simp [h1, h2, h3, Int.toNat_ofNat]

theorem linspace_first (a b : ℚ) {n : ℕ} (h : 1 ≤ n) :
    (linspace a b n).getD 0 0 = a := by
  rw [linspace_getD _ _ h]
  simp [lsp]

theorem linspace_last (a b : ℚ) {n : ℕ} (h : 2 ≤ n) :
    (linspace a b n).getD (n - 1) 0 = b := by
  rw [linspace_getD _ _ (by omega)]
  unfold lsp
  have h0 := cast_sub_one_ne_zero h
  have h1 : ((n - 1 : ℕ) : ℚ) = (n : ℚ) - 1 := by
    have : 1 ≤ n := by omega
    push_cast [this]
    ring
  rw [h1]
  field_simp

/-- C3: the serialized structured grid stores each coordinate channel as its
    own flat sequence of length nx*ny*nz, flattened with i fastest and k
    slowest, so the channel value for index (i, j, k) sits at flat offset
    k*ny*nx + j*nx + i; and for the offset box min=(0,0,0), max=(2,0,0),
    margins 0, nx=3, ny=2, nz=2, the x channel is {0,1,2} repeated ny*nz
    times with index (1,0,0) at flat offset 1. -/
theorem serialized_flat_layout :
    (∀ (nx ny nz : ℕ) (g : ℕ → ℕ → ℕ → ℚ) (i j k : ℕ), i < nx → j < ny → k < nz →
        (flattenChannel nx ny nz g).length = nx * ny * nz ∧
        (flattenChannel nx ny nz g).getD (k * ny * nx + j * nx + i) 0 = g i j k) ∧
    (∃ f, generate_ffd_box (0, 0, 0) (2, 0, 0) 3 2 2 0 0 0 none none = Except.ok f ∧
        f.xs = [0, 1, 2, 0, 1, 2, 0, 1, 2, 0, 1, 2] ∧
        f.xs.getD (0 * 2 * 3 + 0 * 3 + 1) 0 = 1) := by
  constructor
  · intro nx ny nz g i j k hi hj hk
    constructor
    · rw [flattenChannel_length]; ring
    · have hidx : k * ny * nx + j * nx + i = k * (ny * nx) + (j * nx + i) := by ring
      rw [hidx]
      exact flattenChannel_getD nx ny nz g hi hj hk
  · have h : generate_ffd_box (0, 0, 0) (2, 0, 0) 3 2 2 0 0 0 none none =
        .ok { nBlocks := 1, nx := 3, ny := 2, nz := 2,
              xs := [0, 1, 2, 0, 1, 2, 0, 1, 2, 0, 1, 2],
              ys := [0, 0, 0, 0, 0, 0, 0, 0, 0, 0, 0, 0],
              zs := [0, 0, 0, 0, 0, 0, 0, 0, 0, 0, 0, 0] } := by
      rw [show ((3 : ℤ)) = ((3 : ℕ) : ℤ) from rfl, show ((2 : ℤ)) = ((2 : ℕ) : ℤ) from rfl,
        generate_ffd_box_natCast]
      norm_num [ffdBoxBounds, flattenChannel, linspace, lsp, fmt6, List.range_succ]
    exact ⟨_, h, rfl, by norm_num [List.getD_cons_succ, List.getD_cons_zero]⟩

/-- Witness for C3's universally quantified part at nx=3, ny=2, nz=2 and
    index (1, 0, 0). -/
theorem serialized_flat_layout_witness :
    (flattenChannel 3 2 2 (fun i j k => (i : ℚ) + 10 * j + 100 * k)).length = 3 * 2 * 2 ∧
    (flattenChannel 3 2 2 (fun i j k => (i : ℚ) + 10 * j + 100 * k)).getD
        (0 * 2 * 3 + 0 * 3 + 1) 0 = ((1 : ℕ) : ℚ) + 10 * (0 : ℕ) + 100 * (0 : ℕ) :=
  serialized_flat_layout.1 3 2 2 _ 1 0 0 (by norm_num) (by norm_num) (by norm_num)

/-- C4 counterexample: a request with nx = 1 is not rejected (there is no
    point-count validation and no UsageError in the generator); it silently
    returns a lattice that is a single point thick in x. -/
theorem nx_one_not_rejected_cex :
    generate_ffd_box (0, 0, 0) (1, 1, 1) 1 2 2 0 0 0 none none =
      Except.ok { nBlocks := 1, nx := 1, ny := 2, nz := 2,
                  xs := [0, 0, 0, 0], ys := [0, 1, 0, 1], zs := [0, 0, 1, 1] } := by
  rw [show ((1 : ℤ)) = ((1 : ℕ) : ℤ) from rfl, show ((2 : ℤ)) = ((2 : ℕ) : ℤ) from rfl,
    generate_ffd_box_natCast]
  norm_num [ffdBoxBounds, flattenChannel, linspace, lsp, fmt6, List.range_succ]

/-- C4 amended: the generator performs no validation of the requested point
    counts: a request with nx = 1 is accepted and silently produces a
    single-point lattice along x, every x value being the effective x
    minimum; the only count the code rejects is a negative one (numpy raises
    a ValueError). -/
theorem nx_one_single_point_lattice (minPoint maxPoint : Vec3)
    (offX offY offZ : ℚ) (xStart xEnd : Option ℚ) (ny nz : ℕ) :
    ∃ f, generate_ffd_box minPoint maxPoint 1 ↑ny ↑nz offX offY offZ xStart xEnd =
        Except.ok f ∧ f.nx = 1 ∧ f.xs.length = ny * nz ∧
      ∀ q ∈ f.xs,
        q = fmt6 ((ffdBoxBounds minPoint maxPoint offX offY offZ xStart xEnd).1.1) := by
  rw [show ((1 : ℤ)) = ((1 : ℕ) : ℤ) from rfl, generate_ffd_box_natCast]
  refine ⟨_, rfl, rfl, ?_, ?_⟩
  · rw [flattenChannel_length]; ring
  · intro q hq
    simp only [flattenChannel, List.mem_flatMap, List.mem_map, List.mem_range] at hq
    obtain ⟨k, -, j, -, i, hi, hq⟩ := hq
    have hi0 : i = 0 := by omega
    subst hi0
    rw [← hq]
    have h1 : (linspace (ffdBoxBounds minPoint maxPoint offX offY offZ xStart xEnd).1.1
        (ffdBoxBounds minPoint maxPoint offX offY offZ xStart xEnd).2.1 1).getD 0 0 =
        (ffdBoxBounds minPoint maxPoint offX offY offZ xStart xEnd).1.1 :=
      linspace_first _ _ (by omega)
    rw [h1]

/-- C5 counterexample: an inverted effective box (x_start override 10,
    x_end override 0, so x_min = 10 > x_max = 0 after offsets) is not
    rejected; the generator happily produces a grid with decreasing x. -/
theorem inverted_box_not_rejected_cex :
    generate_ffd_box (0, 0, 0) (1, 1, 1) 2 2 2 0 0 0 (some 10) (some 0) =
      Except.ok { nBlocks := 1, nx := 2, ny := 2, nz := 2,
                  xs := [10, 0, 10, 0, 10, 0, 10, 0],
                  ys := [0, 0, 1, 1, 0, 0, 1, 1],
                  zs := [0, 0, 0, 0, 1, 1, 1, 1] } := by
  rw [show ((2 : ℤ)) = ((2 : ℕ) : ℤ) from rfl, generate_ffd_box_natCast]
  norm_num [ffdBoxBounds, flattenChannel, linspace, lsp, fmt6, List.range_succ]

/-- C5 amended: the generator performs no validation of the effective box at
    all: for every input geometry bounds, offsets and overrides (including
    any zero-size or inverted ones) and every non-negative point counts it
    returns a grid rather than an error. -/
theorem no_box_validation (minPoint maxPoint : Vec3) (offX offY offZ : ℚ)
    (xStart xEnd : Option ℚ) (nx ny nz : ℕ) :
    ∃ f, generate_ffd_box minPoint maxPoint ↑nx ↑ny ↑nz offX offY offZ xStart xEnd =
      Except.ok f := by
  rw [generate_ffd_box_natCast]
  exact ⟨_, rfl⟩

/-- C10: supplying the x_start (respectively x_end) override replaces only
    the first coordinate of the min (respectively max) corner, leaving the
    y and z bounds those of the input geometry, and the x offset margin is
    still applied after the override, so the grid's extreme x values are
    x_start - offset_x (at i = 0) and x_end + offset_x (at i = nx-1). -/
theorem x_override_partial (minPoint maxPoint : Vec3) (offX offY offZ a b : ℚ)
    {nx : ℕ} (hnx : 2 ≤ nx) :
    ffdBoxBounds minPoint maxPoint offX offY offZ (some a) (some b) =
      ((a - offX, minPoint.2.1 - offY, minPoint.2.2 - offZ),
       (b + offX, maxPoint.2.1 + offY, maxPoint.2.2 + offZ)) ∧
    (∀ (ny nz j k : ℕ),
      (offsetBoxLattice (a - offX) (b + offX) (minPoint.2.1 - offY)
        (maxPoint.2.1 + offY) (minPoint.2.2 - offZ) (maxPoint.2.2 + offZ)
        nx ny nz 0 j k).1 = a - offX) ∧
    (∀ (ny nz j k : ℕ),
      (offsetBoxLattice (a - offX) (b + offX) (minPoint.2.1 - offY)
        (maxPoint.2.1 + offY) (minPoint.2.2 - offZ) (maxPoint.2.2 + offZ)
        nx ny nz (nx - 1) j k).1 = b + offX) :=
  ⟨rfl,
   fun _ _ _ _ => linspace_first _ _ (by omega),
   fun _ _ _ _ => linspace_last _ _ hnx⟩

/-- Witness for C10 at concrete geometry bounds (0,0,0)-(5,2,3), offsets
    (1, 1/2, 1/4), overrides x_start = 10, x_end = 20, nx = 3. -/
theorem x_override_partial_witness :
    ffdBoxBounds (0, 0, 0) (5, 2, 3) 1 (1/2) (1/4) (some 10) (some 20) =
      ((10 - 1, 0 - 1/2, 0 - 1/4), (20 + 1, 2 + 1/2, 3 + 1/4)) ∧
    (∀ (ny nz j k : ℕ),
      (offsetBoxLattice (10 - 1) (20 + 1) (0 - 1/2) (2 + 1/2) (0 - 1/4) (3 + 1/4)
        3 ny nz 0 j k).1 = 10 - 1) ∧
    (∀ (ny nz j k : ℕ),
      (offsetBoxLattice (10 - 1) (20 + 1) (0 - 1/2) (2 + 1/2) (0 - 1/4) (3 + 1/4)
        3 ny nz (3 - 1) j k).1 = 20 + 1) := by
  have h := x_override_partial ((0 : ℚ), (0 : ℚ), (0 : ℚ)) ((5 : ℚ), (2 : ℚ), (3 : ℚ))
      1 (1/2) (1/4) 10 20 (by norm_num : (2 : ℕ) ≤ 3)
  simpa using h

theorem pymin_fin_fin (a b : ℚ) : pymin (.fin a) (.fin b) = .fin (min a b) := by
  simp only [pymin, PyF.ltb, decide_eq_true_eq]
  rcases lt_or_le b a with h | h
  · rw [if_pos h, min_eq_right h.le]
  · rw [if_neg (not_lt.mpr h), min_eq_left h]

theorem pymax_fin_fin (a b : ℚ) : pymax (.fin a) (.fin b) = .fin (max a b) := by
  simp only [pymax, PyF.ltb, decide_eq_true_eq]
  rcases lt_or_le a b with h | h
  · rw [if_pos h, max_eq_right h.le]
  · rw [if_neg (not_lt.mpr h), max_eq_left h]

theorem foldl_pymin_fin (l : List ℚ) :
    ∀ m : ℚ, l.foldl (fun a x => pymin a (.fin x)) (.fin m) = .fin (l.foldl min m) := by
  induction l with
  | nil => intro m; rfl
  | cons q t ih =>
    intro m
    rw [List.foldl_cons, List.foldl_cons, pymin_fin_fin]
    exact ih _

theorem foldl_pymax_fin (l : List ℚ) :
    ∀ m : ℚ, l.foldl (fun a x => pymax a (.fin x)) (.fin m) = .fin (l.foldl max m) := by
  induction l with
  | nil => intro m; rfl
  | cons q t ih =>
    intro m
    rw [List.foldl_cons, List.foldl_cons, pymax_fin_fin]
    exact ih _

theorem foldl_pymin_inf (q : ℚ) (l : List ℚ) :
    (q :: l).foldl (fun a x => pymin a (.fin x)) .inf = .fin (l.foldl min q) := by
  rw [List.foldl_cons, show pymin .inf (.fin q) = .fin q from rfl, foldl_pymin_fin]

theorem foldl_pymax_ninf (q : ℚ) (l : List ℚ) :
    (q :: l).foldl (fun a x => pymax a (.fin x)) .ninf = .fin (l.foldl max q) := by
  rw [List.foldl_cons, show pymax .ninf (.fin q) = .fin q from rfl, foldl_pymax_fin]

theorem foldl_updBnds_eq (vs : List Vec3) :
    ∀ b : Bnds, vs.foldl updBnds b =
      { min_x := (vs.map (fun p => p.1)).foldl (fun a x => pymin a (.fin x)) b.min_x,
        min_y := (vs.map (fun p => p.2.1)).foldl (fun a x => pymin a (.fin x)) b.min_y,
        min_z := (vs.map (fun p => p.2.2)).foldl (fun a x => pymin a (.fin x)) b.min_z,
        max_x := (vs.map (fun p => p.1)).foldl (fun a x => pymax a (.fin x)) b.max_x,
        max_y := (vs.map (fun p => p.2.1)).foldl (fun a x => pymax a (.fin x)) b.max_y,
        max_z := (vs.map (fun p => p.2.2)).foldl (fun a x => pymax a (.fin x)) b.max_z } := by
  induction vs with
  | nil => intro b; rfl
  | cons v t ih =>
    intro b
    rw [List.foldl_cons, ih]
    rfl

theorem triLoop_eq_foldl :
    ∀ (n : ℕ) (bs : List ℕ) (b : Bnds) (vs : List Vec3),
      triVerts n bs = some vs → triLoop n bs b = .ok (vs.foldl updBnds b) := by
  intro n
  induction n with
  | zero =>
    intro bs b vs h
    simp only [triVerts, Option.some.injEq] at h
    subst h
    rfl
  | succ n ih =>
    intro bs b vs h
    simp only [triVerts] at h
    simp only [triLoop]
    cases h1 : read12 (bs.drop 12) with
    | none => simp only [h1] at h; exact Option.noConfusion h
    | some p1 =>
      obtain ⟨v1, bs2⟩ := p1
      simp only [h1] at h ⊢
      cases h2 : read12 bs2 with
      | none => simp only [h2] at h; exact Option.noConfusion h
      | some p2 =>
        obtain ⟨v2, bs3⟩ := p2
        simp only [h2] at h ⊢
        cases h3 : read12 bs3 with
        | none => simp only [h3] at h; exact Option.noConfusion h
        | some p3 =>
          obtain ⟨v3, bs4⟩ := p3
          simp only [h3] at h ⊢
          simp only [Option.map_eq_some'] at h
          obtain ⟨vs4, hv4, rfl⟩ := h
          rw [ih _ _ _ hv4]
          simp [List.foldl_cons]

theorem asciiLine_eq (b : Bnds) (line : List STok) (v : List Vec3)
    (h : asciiLineVerts line = some v) :
    asciiLine b line = .ok (v.foldl updBnds b) := by
  unfold asciiLineVerts at h
  unfold asciiLine
  by_cases hs : startsVertex line = true
  · rw [if_pos hs] at h ⊢
    match line with
    | [] => simp only [Option.some.injEq] at h; subst h; rfl
    | [t0] => simp only [Option.some.injEq] at h; subst h; rfl
    | [t0, t1] => simp only [Option.some.injEq] at h; subst h; rfl
    | [t0, t1, t2] => simp only [Option.some.injEq] at h; subst h; rfl
    | t0 :: t1 :: t2 :: t3 :: t4 :: rest =>
      simp only [Option.some.injEq] at h; subst h; rfl
    | [t0, t1, t2, t3] =>
      cases hp1 : parseFloat t1 with
      | none => simp only [hp1] at h; exact Option.noConfusion h
      | some x =>
        simp only [hp1] at h ⊢
        cases hp2 : parseFloat t2 with
        | none => simp only [hp2] at h; exact Option.noConfusion h
        | some y =>
          simp only [hp2] at h ⊢
          cases hp3 : parseFloat t3 with
          | none => simp only [hp3] at h; exact Option.noConfusion h
          | some z =>
            simp only [hp3, Option.some.injEq] at h ⊢
            subst h
            rfl
  · rw [if_neg hs] at h ⊢
    simp only [Option.some.injEq] at h
    subst h
    rfl

theorem asciiLoop_eq_foldl :
    ∀ (ls : List (List STok)) (b : Bnds) (vs : List Vec3),
      asciiVerts ls = some vs → asciiLoop ls b = .ok (vs.foldl updBnds b) := by
  intro ls
  induction ls with
  | nil =>
    intro b vs h
    simp only [asciiVerts, Option.some.injEq] at h
    subst h
    rfl
  | cons l t ih =>
    intro b vs h
    simp only [asciiVerts] at h
    cases hl : asciiLineVerts l with
    | none => rw [hl] at h; exact absurd h (by simp)
    | some v =>
      rw [hl] at h
      cases ht : asciiVerts t with
      | none => rw [ht] at h; exact absurd h (by simp)
      | some vs2 =>
        rw [ht] at h
        simp only [Option.some.injEq] at h
        subst h
        simp only [asciiLoop, asciiLine_eq b l v hl]
        rw [ih _ _ ht, List.foldl_append]

theorem foldl_min_le (l : List ℚ) : ∀ a : ℚ, l.foldl min a ≤ a := by
  induction l with
  | nil => intro a; simp
  | cons q t ih => intro a; exact le_trans (ih (min a q)) (min_le_left a q)

theorem le_foldl_max (l : List ℚ) : ∀ a : ℚ, a ≤ l.foldl max a := by
  induction l with
  | nil => intro a; simp
  | cons q t ih => intro a; exact le_trans (le_max_left a q) (ih (max a q))

theorem get_stl_bounds_binary_of_verts (bytes : List ℕ) (v : Vec3) (vs : List Vec3)
    (h : binVerts bytes = some (v :: vs)) :
    get_stl_bounds_binary bytes = .ok
      ⟨.fin ((vs.map (fun p => p.1)).foldl min v.1),
       .fin ((vs.map (fun p => p.2.1)).foldl min v.2.1),
       .fin ((vs.map (fun p => p.2.2)).foldl min v.2.2),
       .fin ((vs.map (fun p => p.1)).foldl max v.1),
       .fin ((vs.map (fun p => p.2.1)).foldl max v.2.1),
       .fin ((vs.map (fun p => p.2.2)).foldl max v.2.2)⟩ := by
  unfold binVerts at h
  unfold get_stl_bounds_binary
  rcases hd : bytes.drop 80 with _ | ⟨c0, _ | ⟨c1, _ | ⟨c2, _ | ⟨c3, rest⟩⟩⟩⟩
  · simp only [hd] at h; exact Option.noConfusion h
  · simp only [hd] at h; exact Option.noConfusion h
  · simp only [hd] at h; exact Option.noConfusion h
  · simp only [hd] at h; exact Option.noConfusion h
  · simp only [hd] at h ⊢
    rw [triLoop_eq_foldl _ _ _ _ h, foldl_updBnds_eq]
    simp only [initBnds, List.map_cons]
    rw [foldl_pymin_inf, foldl_pymin_inf, foldl_pymin_inf,
      foldl_pymax_ninf, foldl_pymax_ninf, foldl_pymax_ninf]

theorem get_stl_bounds_ascii_of_verts (lines : List (List STok)) (v : Vec3)
    (vs : List Vec3) (h : asciiVerts lines = some (v :: vs)) :
    get_stl_bounds_ascii lines = .ok
      ⟨.fin ((vs.map (fun p => p.1)).foldl min v.1),
       .fin ((vs.map (fun p => p.2.1)).foldl min v.2.1),
       .fin ((vs.map (fun p => p.2.2)).foldl min v.2.2),
       .fin ((vs.map (fun p => p.1)).foldl max v.1),
       .fin ((vs.map (fun p => p.2.1)).foldl max v.2.1),
       .fin ((vs.map (fun p => p.2.2)).foldl max v.2.2)⟩ := by
  unfold get_stl_bounds_ascii
  rw [asciiLoop_eq_foldl _ _ _ h, foldl_updBnds_eq]
  simp only [initBnds, List.map_cons]
  rw [foldl_pymin_inf, foldl_pymin_inf, foldl_pymin_inf,
    foldl_pymax_ninf, foldl_pymax_ninf, foldl_pymax_ninf]

/-- C6: for every triangle mesh input, in the binary or the text encoding,
    with at least one vertex, the bounds extraction returns as min corner
    the component-wise minimum and as max corner the component-wise maximum
    of all vertex coordinates; in particular the single triangle (0,0,0),
    (1,0,0), (0,1,0) yields min=(0,0,0), max=(1,1,0). -/
theorem get_stl_bounds_minmax :
    (∀ (bytes : List ℕ) (v : Vec3) (vs : List Vec3),
        binVerts bytes = some (v :: vs) →
        ∃ mx my mz Mx My Mz : ℚ,
          ((v :: vs).map (fun p => p.1)).min? = some mx ∧
          ((v :: vs).map (fun p => p.2.1)).min? = some my ∧
          ((v :: vs).map (fun p => p.2.2)).min? = some mz ∧
          ((v :: vs).map (fun p => p.1)).max? = some Mx ∧
          ((v :: vs).map (fun p => p.2.1)).max? = some My ∧
          ((v :: vs).map (fun p => p.2.2)).max? = some Mz ∧
          get_stl_bounds_binary bytes =
            .ok ⟨.fin mx, .fin my, .fin mz, .fin Mx, .fin My, .fin Mz⟩) ∧
    (∀ (lines : List (List STok)) (v : Vec3) (vs : List Vec3),
        asciiVerts lines = some (v :: vs) →
        ∃ mx my mz Mx My Mz : ℚ,
          ((v :: vs).map (fun p => p.1)).min? = some mx ∧
          ((v :: vs).map (fun p => p.2.1)).min? = some my ∧
          ((v :: vs).map (fun p => p.2.2)).min? = some mz ∧
          ((v :: vs).map (fun p => p.1)).max? = some Mx ∧
          ((v :: vs).map (fun p => p.2.1)).max? = some My ∧
          ((v :: vs).map (fun p => p.2.2)).max? = some Mz ∧
          get_stl_bounds_ascii lines =
            .ok ⟨.fin mx, .fin my, .fin mz, .fin Mx, .fin My, .fin Mz⟩) ∧
    get_stl_bounds_ascii stlTriLines =
      .ok ⟨.fin 0, .fin 0, .fin 0, .fin 1, .fin 1, .fin 0⟩ := by
  have hb : ∀ (bytes : List ℕ) (v : Vec3) (vs : List Vec3),
      binVerts bytes = some (v :: vs) →
      ∃ mx my mz Mx My Mz : ℚ,
        ((v :: vs).map (fun p => p.1)).min? = some mx ∧
        ((v :: vs).map (fun p => p.2.1)).min? = some my ∧
        ((v :: vs).map (fun p => p.2.2)).min? = some mz ∧
        ((v :: vs).map (fun p => p.1)).max? = some Mx ∧
        ((v :: vs).map (fun p => p.2.1)).max? = some My ∧
        ((v :: vs).map (fun p => p.2.2)).max? = some Mz ∧
        get_stl_bounds_binary bytes =
          .ok ⟨.fin mx, .fin my, .fin mz, .fin Mx, .fin My, .fin Mz⟩ := by
    intro bytes v vs h
    exact ⟨_, _, _, _, _, _, rfl, rfl, rfl, rfl, rfl, rfl,
      get_stl_bounds_binary_of_verts bytes v vs h⟩
  have ha : ∀ (lines : List (List STok)) (v : Vec3) (vs : List Vec3),
      asciiVerts lines = some (v :: vs) →
      ∃ mx my mz Mx My Mz : ℚ,
        ((v :: vs).map (fun p => p.1)).min? = some mx ∧
        ((v :: vs).map (fun p => p.2.1)).min? = some my ∧
        ((v :: vs).map (fun p => p.2.2)).min? = some mz ∧
        ((v :: vs).map (fun p => p.1)).max? = some Mx ∧
        ((v :: vs).map (fun p => p.2.1)).max? = some My ∧
        ((v :: vs).map (fun p => p.2.2)).max? = some Mz ∧
        get_stl_bounds_ascii lines =
          .ok ⟨.fin mx, .fin my, .fin mz, .fin Mx, .fin My, .fin Mz⟩ := by
    intro lines v vs h
    exact ⟨_, _, _, _, _, _, rfl, rfl, rfl, rfl, rfl, rfl,
      get_stl_bounds_ascii_of_verts lines v vs h⟩
  refine ⟨hb, ha, ?_⟩
  have h := get_stl_bounds_ascii_of_verts stlTriLines (0, 0, 0) [(1, 0, 0), (0, 1, 0)]
    (by decide)
  rw [h]
  norm_num [min_def, max_def]

/-- Witness for C6 at the concrete single-triangle inputs, in both
    encodings. -/
theorem get_stl_bounds_minmax_witness :
    (∃ mx my mz Mx My Mz : ℚ,
        (([((0 : ℚ), (0 : ℚ), (0 : ℚ)), (1, 0, 0), (0, 1, 0)]).map
            (fun p => p.1)).min? = some mx ∧
        (([((0 : ℚ), (0 : ℚ), (0 : ℚ)), (1, 0, 0), (0, 1, 0)]).map
            (fun p => p.2.1)).min? = some my ∧
        (([((0 : ℚ), (0 : ℚ), (0 : ℚ)), (1, 0, 0), (0, 1, 0)]).map
            (fun p => p.2.2)).min? = some mz ∧
        (([((0 : ℚ), (0 : ℚ), (0 : ℚ)), (1, 0, 0), (0, 1, 0)]).map
            (fun p => p.1)).max? = some Mx ∧
        (([((0 : ℚ), (0 : ℚ), (0 : ℚ)), (1, 0, 0), (0, 1, 0)]).map
            (fun p => p.2.1)).max? = some My ∧
        (([((0 : ℚ), (0 : ℚ), (0 : ℚ)), (1, 0, 0), (0, 1, 0)]).map
            (fun p => p.2.2)).max? = some Mz ∧
        get_stl_bounds_binary stlTriBytes =
          .ok ⟨.fin mx, .fin my, .fin mz, .fin Mx, .fin My, .fin Mz⟩) ∧
    (∃ mx my mz Mx My Mz : ℚ,
        (([((0 : ℚ), (0 : ℚ), (0 : ℚ)), (1, 0, 0), (0, 1, 0)]).map
            (fun p => p.1)).min? = some mx ∧
        (([((0 : ℚ), (0 : ℚ), (0 : ℚ)), (1, 0, 0), (0, 1, 0)]).map
            (fun p => p.2.1)).min? = some my ∧
        (([((0 : ℚ), (0 : ℚ), (0 : ℚ)), (1, 0, 0), (0, 1, 0)]).map
            (fun p => p.2.2)).min? = some mz ∧
        (([((0 : ℚ), (0 : ℚ), (0 : ℚ)), (1, 0, 0), (0, 1, 0)]).map
            (fun p => p.1)).max? = some Mx ∧
        (([((0 : ℚ), (0 : ℚ), (0 : ℚ)), (1, 0, 0), (0, 1, 0)]).map
            (fun p => p.2.1)).max? = some My ∧
        (([((0 : ℚ), (0 : ℚ), (0 : ℚ)), (1, 0, 0), (0, 1, 0)]).map
            (fun p => p.2.2)).max? = some Mz ∧
        get_stl_bounds_ascii stlTriLines =
          .ok ⟨.fin mx, .fin my, .fin mz, .fin Mx, .fin My, .fin Mz⟩) := by
  constructor
  · refine get_stl_bounds_minmax.1 stlTriBytes (0, 0, 0) [(1, 0, 0), (0, 1, 0)] ?_
    have hdrop : stlTriBytes.drop 80 = [1, 0, 0, 0] ++ stlTriData := by decide
    unfold binVerts
    rw [hdrop]
    norm_num [u32, triVerts, read12, decode32, stlTriData, List.getD]
  · exact get_stl_bounds_minmax.2.1 stlTriLines (0, 0, 0) [(1, 0, 0), (0, 1, 0)] (by decide)

theorem read12_none_of_lt {bs : List ℕ} (h : bs.length < 12) : read12 bs = none := by
  unfold read12
  rw [if_neg (by omega)]

theorem read12_some_of_le {bs : List ℕ} (h : 12 ≤ bs.length) :
    ∃ v, read12 bs = some (v, bs.drop 12) :=
  ⟨_, by unfold read12; rw [if_pos h]⟩

theorem triLoop_truncated :
    ∀ (n : ℕ) (bs : List ℕ) (b : Bnds), 1 ≤ n → bs.length + 2 < 50 * n →
      triLoop n bs b = .error .structError := by
  intro n
  induction n with
  | zero => intro bs b h1 _; exact absurd h1 (by omega)
  | succ n ih =>
    intro bs b _ hlen
    simp only [triLoop]
    by_cases h1 : 12 ≤ (bs.drop 12).length
    · obtain ⟨v1, hr1⟩ := read12_some_of_le h1
      simp only [hr1]
      by_cases h2 : 12 ≤ ((bs.drop 12).drop 12).length
      · obtain ⟨v2, hr2⟩ := read12_some_of_le h2
        simp only [hr2]
        by_cases h3 : 12 ≤ (((bs.drop 12).drop 12).drop 12).length
        · obtain ⟨v3, hr3⟩ := read12_some_of_le h3
          simp only [hr3]
          refine ih _ _ ?_ ?_
          · simp only [List.length_drop] at h3 hlen ⊢
            omega
          · simp only [List.length_drop] at h3 hlen ⊢
            omega
        · rw [read12_none_of_lt (by omega)]
      · rw [read12_none_of_lt (by omega)]
    · rw [read12_none_of_lt (by omega)]

/-- C7 counterexample: a binary file declaring 1 triangle but holding only
    30 of the 48 vertex-data bytes makes the bounds reader fail with the raw
    struct-unpacking error (struct.error), not a labeled FormatError: no
    FormatError exists anywhere in the code. -/
theorem truncated_stl_raw_error_cex :
    get_stl_bounds_binary
        (List.replicate 80 0 ++
          ([1, 0, 0, 0] ++
            [0, 0, 0, 0, 0, 0, 0, 0, 0, 0, 0, 0, 0, 0, 0,
             0, 0, 0, 0, 0, 0, 0, 0, 0, 0, 0, 0, 0, 0, 0])) =
      .error .structError := by
  have hdrop : (List.replicate 80 0 ++
      ([1, 0, 0, 0] ++
        [0, 0, 0, 0, 0, 0, 0, 0, 0, 0, 0, 0, 0, 0, 0,
         0, 0, 0, 0, 0, 0, 0, 0, 0, 0, 0, 0, 0, 0, 0])).drop 80 =
      [1, 0, 0, 0] ++
        [0, 0, 0, 0, 0, 0, 0, 0, 0, 0, 0, 0, 0, 0, 0,
         0, 0, 0, 0, 0, 0, 0, 0, 0, 0, 0, 0, 0, 0, 0] := by decide
  unfold get_stl_bounds_binary
  rw [hdrop]
  norm_num [u32, triLoop, read12, decode32, List.getD]

/-- C7 amended: for every binary surface-mesh input whose declared triangle
    count implies more vertex data than the file contains, the bounds
    reader propagates the raw struct-unpacking error (struct.error); the
    code never wraps it in a labeled FormatError (none exists). -/
theorem truncated_binary_struct_error (bytes : List ℕ) (c0 c1 c2 c3 : ℕ)
    (rest : List ℕ) (hd : bytes.drop 80 = c0 :: c1 :: c2 :: c3 :: rest)
    (hn : 1 ≤ u32 c0 c1 c2 c3)
    (hlen : rest.length + 2 < 50 * u32 c0 c1 c2 c3) :
    get_stl_bounds_binary bytes = .error .structError := by
  unfold get_stl_bounds_binary
  simp only [hd]
  exact triLoop_truncated _ _ _ hn hlen

/-- Witness for C7's amended theorem: a file declaring one triangle with no
    triangle data at all. -/
theorem truncated_binary_struct_error_witness :
    get_stl_bounds_binary (List.replicate 80 0 ++ [1, 0, 0, 0]) =
      .error .structError :=
  truncated_binary_struct_error _ 1 0 0 0 [] (by decide) (by decide) (by decide)

/-- C9 counterexample: the reader accepts a binary mesh with zero triangles
    and returns min = +inf, max = -inf on every axis, violating the claimed
    min ≤ max invariant. -/
theorem empty_stl_bounds_cex :
    get_stl_bounds_binary (List.replicate 80 0 ++ [0, 0, 0, 0]) = .ok initBnds ∧
    PyF.leb initBnds.min_x initBnds.max_x = false := by
  constructor
  · have hdrop : (List.replicate 80 0 ++ [0, 0, 0, 0]).drop 80 =
        0 :: 0 :: 0 :: 0 :: [] := by decide
    unfold get_stl_bounds_binary
    simp only [hdrop]
    rfl
  · rfl

/-- C9 amended: for every mesh input, in either encoding, that contains at
    least one vertex, the returned bounds satisfy min ≤ max on each axis
    (an empty mesh instead returns min = +inf > max = -inf). -/
theorem bounds_min_le_max_of_nonempty :
    (∀ (bytes : List ℕ) (v : Vec3) (vs : List Vec3),
        binVerts bytes = some (v :: vs) →
        ∃ b, get_stl_bounds_binary bytes = .ok b ∧
          PyF.leb b.min_x b.max_x = true ∧ PyF.leb b.min_y b.max_y = true ∧
          PyF.leb b.min_z b.max_z = true) ∧
    (∀ (lines : List (List STok)) (v : Vec3) (vs : List Vec3),
        asciiVerts lines = some (v :: vs) →
        ∃ b, get_stl_bounds_ascii lines = .ok b ∧
          PyF.leb b.min_x b.max_x = true ∧ PyF.leb b.min_y b.max_y = true ∧
          PyF.leb b.min_z b.max_z = true) := by
  have key : ∀ (l : List ℚ) (a : ℚ),
      PyF.leb (.fin (l.foldl min a)) (.fin (l.foldl max a)) = true := by
    intro l a
    simp only [PyF.leb, decide_eq_true_eq]
    exact le_trans (foldl_min_le l a) (le_foldl_max l a)
  constructor
  · intro bytes v vs h
    exact ⟨_, get_stl_bounds_binary_of_verts bytes v vs h,
      key _ _, key _ _, key _ _⟩
  · intro lines v vs h
    exact ⟨_, get_stl_bounds_ascii_of_verts lines v vs h,
      key _ _, key _ _, key _ _⟩

/-- Witness for C9's amended theorem at the concrete single-triangle
    inputs, in both encodings. -/
theorem bounds_min_le_max_of_nonempty_witness :
    (∃ b, get_stl_bounds_binary stlTriBytes = .ok b ∧
        PyF.leb b.min_x b.max_x = true ∧ PyF.leb b.min_y b.max_y = true ∧
        PyF.leb b.min_z b.max_z = true) ∧
    (∃ b, get_stl_bounds_ascii stlTriLines = .ok b ∧
        PyF.leb b.min_x b.max_x = true ∧ PyF.leb b.min_y b.max_y = true ∧
        PyF.leb b.min_z b.max_z = true) := by
  constructor
  · refine bounds_min_le_max_of_nonempty.1 stlTriBytes (0, 0, 0)
      [(1, 0, 0), (0, 1, 0)] ?_
    have hdrop : stlTriBytes.drop 80 = [1, 0, 0, 0] ++ stlTriData := by decide
    unfold binVerts
    rw [hdrop]
    norm_num [u32, triVerts, read12, decode32, stlTriData, List.getD]
  · exact bounds_min_le_max_of_nonempty.2 stlTriLines (0, 0, 0)
      [(1, 0, 0), (0, 1, 0)] (by decide)

theorem splitLinesAux_append_nl :
    ∀ (a b cur : List Tok), Tok.nl ∉ a →
      splitLinesAux (a ++ .nl :: b) cur = (cur ++ a) :: splitLinesAux b [] := by
  intro a
  induction a with
  | nil => intro b cur _; simp [splitLinesAux]
  | cons t ts ih =>
    intro b cur hmem
    match t with
    | .nl => exact absurd (by simp) hmem
    | .int n =>
      rw [List.cons_append]
      simp only [splitLinesAux]
      rw [ih _ _ (fun hc => hmem (by simp [hc]))]
      simp
    | .real q =>
      rw [List.cons_append]
      simp only [splitLinesAux]
      rw [ih _ _ (fun hc => hmem (by simp [hc]))]
      simp

theorem splitLinesAux_no_nl :
    ∀ (a cur : List Tok), Tok.nl ∉ a → cur ++ a ≠ [] →
      splitLinesAux a cur = [cur ++ a] := by
  intro a
  induction a with
  | nil =>
    intro cur _ hne
    simp only [splitLinesAux]
    rw [if_neg (by simpa using hne)]
    simp
  | cons t ts ih =>
    intro cur hmem hne
    match t with
    | .nl => exact absurd (by simp) hmem
    | .int n =>
      simp only [splitLinesAux]
      rw [ih _ (fun hc => hmem (by simp [hc])) (by simp)]
      simp
    | .real q =>
      simp only [splitLinesAux]
      rw [ih _ (fun hc => hmem (by simp [hc])) (by simp)]
      simp

theorem nl_not_mem_map_real (l : List ℚ) : Tok.nl ∉ l.map Tok.real := by
  simp [List.mem_map]

theorem collect_exact (n : ℕ) (l : List Tok) (ls : List (List Tok))
    (hne : l ≠ []) (hlen : l.length = n) :
    collect n [] (l :: ls) = (l.map tokFloat, ls) := by
  simp only [collect]
  rw [if_neg hne, if_pos (by simp [hlen]), List.nil_append]

theorem map_tokFloat_map_real (l : List ℚ) : (l.map Tok.real).map tokFloat = l := by
  rw [List.map_map]
  have h : tokFloat ∘ Tok.real = id := by
    funext q
    rfl
  rw [h, List.map_id]

/-- C8: serializing any structured grid (nx, ny, nz ≥ 2) with the grid
    writer and parsing the result with the grid reader reproduces the
    original nx, ny, nz and all nx*ny*nz coordinate values of each of the
    three channels, up to the writer's 6-decimal text rounding (fmt6). -/
theorem writeFFD_readPlot3D_roundtrip (nx ny nz : ℕ) (pts : ℕ → ℕ → ℕ → Fin 3 → ℚ)
    (hx : 2 ≤ nx) (hy : 2 ≤ ny) (hz : 2 ≤ nz) :
    readPlot3D (splitLines (writeFFDFile [⟨nx, ny, nz, pts⟩])) =
      some (nx, ny, nz,
        flattenChannel nx ny nz (fun i j k => fmt6 (pts i j k 0)),
        flattenChannel nx ny nz (fun i j k => fmt6 (pts i j k 1)),
        flattenChannel nx ny nz (fun i j k => fmt6 (pts i j k 2))) := by
  have hw : writeFFDFile [⟨nx, ny, nz, pts⟩] =
      .int 1 :: .nl :: .int ↑nx :: .int ↑ny :: .int ↑nz :: .nl ::
      ((flattenChannel nx ny nz (fun i j k => fmt6 (pts i j k 0))).map Tok.real ++ .nl ::
        ((flattenChannel nx ny nz (fun i j k => fmt6 (pts i j k 1))).map Tok.real ++ .nl ::
          (flattenChannel nx ny nz (fun i j k => fmt6 (pts i j k 2))).map Tok.real)) := by
    simp [writeFFDFile]
  have hZne : (flattenChannel nx ny nz (fun i j k => fmt6 (pts i j k 2))).map Tok.real ≠ [] := by
    have : ((flattenChannel nx ny nz (fun i j k => fmt6 (pts i j k 2))).map Tok.real).length = nz * (ny * nx) := by
      simp [flattenChannel_length]
    intro hc
    rw [hc] at this
    simp at this
    omega
  have hsplit : splitLines (writeFFDFile [⟨nx, ny, nz, pts⟩]) =
      [[.int 1], [.int ↑nx, .int ↑ny, .int ↑nz],
       (flattenChannel nx ny nz (fun i j k => fmt6 (pts i j k 0))).map Tok.real,
       (flattenChannel nx ny nz (fun i j k => fmt6 (pts i j k 1))).map Tok.real,
       (flattenChannel nx ny nz (fun i j k => fmt6 (pts i j k 2))).map Tok.real] := by
    rw [hw]
    unfold splitLines
    simp only [splitLinesAux, List.nil_append]
    rw [splitLinesAux_append_nl _ _ _ (nl_not_mem_map_real _),
      splitLinesAux_append_nl _ _ _ (nl_not_mem_map_real _),
      splitLinesAux_no_nl _ _ (nl_not_mem_map_real _) (by simpa using hZne)]
    simp
  rw [hsplit]
  have hlenX : ((flattenChannel nx ny nz (fun i j k => fmt6 (pts i j k 0))).map Tok.real).length = nx * ny * nz := by
    simp [flattenChannel_length]
    ring
  have hlenY : ((flattenChannel nx ny nz (fun i j k => fmt6 (pts i j k 1))).map Tok.real).length = nx * ny * nz := by
    simp [flattenChannel_length]
    ring
  have hlenZ : ((flattenChannel nx ny nz (fun i j k => fmt6 (pts i j k 2))).map Tok.real).length = nx * ny * nz := by
    simp [flattenChannel_length]
    ring
  have hXne : (flattenChannel nx ny nz (fun i j k => fmt6 (pts i j k 0))).map Tok.real ≠ [] := by
    intro hc
    rw [hc] at hlenX
    simp at hlenX
    omega
  have hYne : (flattenChannel nx ny nz (fun i j k => fmt6 (pts i j k 1))).map Tok.real ≠ [] := by
    intro hc
    rw [hc] at hlenY
    simp at hlenY
    omega
  simp only [readPlot3D, Int.toNat_ofNat]
  rw [collect_exact _ _ _ hXne hlenX]
  rw [collect_exact _ _ _ hYne hlenY]
  rw [collect_exact _ _ _ hZne hlenZ]
  simp only [map_tokFloat_map_real]
  have hfX : (flattenChannel nx ny nz (fun i j k => fmt6 (pts i j k 0))).length = nx * ny * nz := by
    rw [flattenChannel_length]; ring
  have hfY : (flattenChannel nx ny nz (fun i j k => fmt6 (pts i j k 1))).length = nx * ny * nz := by
    rw [flattenChannel_length]; ring
  have hfZ : (flattenChannel nx ny nz (fun i j k => fmt6 (pts i j k 2))).length = nx * ny * nz := by
    rw [flattenChannel_length]; ring
  rw [if_neg (by rw [hfX]; exact lt_irrefl _), if_neg (by rw [hfY]; exact lt_irrefl _),
    if_neg (by rw [hfZ]; exact lt_irrefl _)]
  rw [List.take_of_length_le (le_of_eq hfX), List.take_of_length_le (le_of_eq hfY),
    List.take_of_length_le (le_of_eq hfZ)]

/-- Witness for C8 at a concrete 2x2x2 grid. -/
theorem writeFFD_readPlot3D_roundtrip_witness :
    readPlot3D (splitLines (writeFFDFile
        [⟨2, 2, 2, fun i j k d => (i : ℚ) + 10 * j + 100 * k + 1000 * (d : ℕ)⟩])) =
      some (2, 2, 2,
        flattenChannel 2 2 2
          (fun i j k => fmt6 ((i : ℚ) + 10 * j + 100 * k + 1000 * ((0 : Fin 3) : ℕ))),
        flattenChannel 2 2 2
          (fun i j k => fmt6 ((i : ℚ) + 10 * j + 100 * k + 1000 * ((1 : Fin 3) : ℕ))),
        flattenChannel 2 2 2
          (fun i j k => fmt6 ((i : ℚ) + 10 * j + 100 * k + 1000 * ((2 : Fin 3) : ℕ)))) :=
  writeFFD_readPlot3D_roundtrip 2 2 2 _ (by norm_num) (by norm_num) (by norm_num)

end DrivAer
